import Mathlib

/-!
Verification of the integrated-gradients notebook
(`resnet_model_understanding.ipynb`).  Images are modelled as rational-valued
pixel arrays of the fixed shape 224 x 224 x 3 used throughout the notebook;
the external ResNet model and its automatic differentiation are abstract
parameters (a logit function and a gradient function), since the notebook
delegates them to the ML framework.
-/

namespace ResnetUnderstanding

/-- Pixel coordinates of the fixed-size 224 x 224 x 3 image tensors used by the notebook. -/
abbrev Pixel : Type := Fin 224 × Fin 224 × Fin 3

/-- An image (or a gradient map): one rational value per pixel coordinate. -/
abbrev Image : Type := Pixel → ℚ

/-- Number of steps in the Riemann sum (constant cell, `RIEMANN_STEPS = 30`). -/
def RIEMANN_STEPS : ℕ := 30

/-- Image preprocessing (cell-11): `tf.to_float(images) / 255 - 0.5`,
normalizing pixel values to the interval [-0.5, 0.5]. -/
def preprocess_images (images : Image) : Image :=
  fun p => images p / 255 - 1 / 2

/-- Path construction loop of `gradients_model_fn` (cell-15):
`path_features = tf.zeros([1,224,224,3])`, then for `i` in `range(1, N+1)`
concatenate `features * i / N` along the batch axis.  The batch is modelled
as a list of images. -/
def pathFeatures (features : Image) (N : ℕ) : List Image :=
  (List.range' 1 N).foldl
    (fun path_features (i : ℕ) => path_features ++ [fun p => features p * (i : ℚ) / (N : ℚ)])
    [fun _ => 0]

/-- Folding an append-one-element loop over a list is the initial list followed
by the mapped list. -/
lemma foldl_append_singleton {α β : Type} (l : List α) (g : α → β) (init : List β) :
    l.foldl (fun acc i => acc ++ [g i]) init = init ++ l.map g := by
  induction l generalizing init with
  | nil => simp
  | cons a l ih => simp [ih]

/-- Closed form of the path construction: the i-th path image is
`features * i / N`, for i = 0 .. N (the all-zero base image is the i = 0 case,
since `features p * 0 / N = 0`). -/
lemma pathFeatures_eq_map (features : Image) (N : ℕ) :
    pathFeatures features N
      = (List.range (N + 1)).map (fun (i : ℕ) => fun p => features p * (i : ℚ) / (N : ℚ)) := by
  unfold pathFeatures
  rw [foldl_append_singleton, List.range_eq_range', List.range'_succ, List.map_cons,
    List.singleton_append]
  congr 1
  funext p
  norm_num

/-- C2: for every step count N >= 1 and every input image, the path construction
produces exactly N+1 path images, path image 0 is the baseline (the all-zero
image after normalization; uniform grey 127.5 before normalization maps to it),
and path image N is the normalized original image. -/
theorem path_endpoints (images : Image) (N : ℕ) (hN : 1 ≤ N) :
    (pathFeatures (preprocess_images images) N).length = N + 1 ∧
    (pathFeatures (preprocess_images images) N)[0]? = some (fun _ => 0) ∧
    (pathFeatures (preprocess_images images) N)[N]? = some (preprocess_images images) ∧
    preprocess_images (fun _ => 255 / 2) = fun _ => 0 := by
  have hN0 : (N : ℚ) ≠ 0 := Nat.cast_ne_zero.mpr (by omega)
  rw [pathFeatures_eq_map]
  refine ⟨by simp, ?_, ?_, ?_⟩
  · simp
  · rw [List.getElem?_map, List.getElem?_range (by omega)]
    simp only [Option.map_some']
    congr 1
    funext p
    rw [mul_div_assoc, div_self hN0, mul_one]
  · funext p
    simp [preprocess_images]
    norm_num

/-- Witness for C2 at N = 1 and the constant image 255. -/
theorem path_endpoints_witness :
    1 ≤ 1 ∧
    ((pathFeatures (preprocess_images (fun _ => (255 : ℚ))) 1).length = 1 + 1 ∧
     (pathFeatures (preprocess_images (fun _ => (255 : ℚ))) 1)[0]? = some (fun _ => 0) ∧
     (pathFeatures (preprocess_images (fun _ => (255 : ℚ))) 1)[1]?
       = some (preprocess_images (fun _ => (255 : ℚ))) ∧
     preprocess_images (fun _ => 255 / 2) = fun _ => 0) :=
  ⟨le_refl 1, path_endpoints (fun _ => (255 : ℚ)) 1 (le_refl 1)⟩

/-- C3: for every step count N >= 1, every image and every index i <= N, path
image i equals the normalized target image scaled by i/N (the baseline is
all-zero after normalization, so baseline + (target - baseline) * i/N reduces
to target * i/N). -/
theorem path_image_interpolation (images : Image) (N i : ℕ) (_hN : 1 ≤ N) (hi : i ≤ N) :
    (pathFeatures (preprocess_images images) N)[i]?
      = some (fun p => preprocess_images images p * (i : ℚ) / (N : ℚ)) := by
  rw [pathFeatures_eq_map, List.getElem?_map, List.getElem?_range (by omega)]
  rfl

/-- Witness for C3: the concrete scenario with normalized target the all-ones
image (raw pixel value 765/2 = 382.5) and N = 2 gives path image 1 equal to
half the target. -/
theorem path_image_interpolation_witness :
    1 ≤ 2 ∧ 1 ≤ 2 ∧
    (pathFeatures (preprocess_images (fun _ => (765 / 2 : ℚ))) 2)[1]?
      = some (fun p => preprocess_images (fun _ => (765 / 2 : ℚ)) p * (1 : ℚ) / (2 : ℚ)) :=
  ⟨by omega, by omega,
    path_image_interpolation (fun _ => (765 / 2 : ℚ)) 2 1 (by omega) (by omega)⟩

/-- C4: for every step count N >= 1 and every image, the elementwise difference
between consecutive path images is the same for all consecutive pairs: for
every i < N, path image i+1 minus path image i equals (normalized image)/N. -/
theorem path_consecutive_difference (images : Image) (N i : ℕ) (hN : 1 ≤ N) (hi : i < N) :
    ∀ p : Pixel,
      ((pathFeatures (preprocess_images images) N).getD (i + 1) (fun _ => 0)) p
        - ((pathFeatures (preprocess_images images) N).getD i (fun _ => 0)) p
      = preprocess_images images p / (N : ℚ) := by
  intro p
  have hN0 : (N : ℚ) ≠ 0 := Nat.cast_ne_zero.mpr (by omega)
  rw [pathFeatures_eq_map]
  rw [List.getD_eq_getElem?_getD, List.getD_eq_getElem?_getD]
  rw [List.getElem?_map, List.getElem?_range (by omega)]
  rw [List.getElem?_map, List.getElem?_range (by omega)]
  simp only [Option.map_some', Option.getD_some]
  push_cast
  field_simp
  ring

/-- Witness for C4 at N = 2, i = 0 and the constant raw image 255. -/
theorem path_consecutive_difference_witness :
    1 ≤ 2 ∧ 0 < 2 ∧
    ∀ p : Pixel,
      ((pathFeatures (preprocess_images (fun _ => (255 : ℚ))) 2).getD (0 + 1) (fun _ => 0)) p
        - ((pathFeatures (preprocess_images (fun _ => (255 : ℚ))) 2).getD 0 (fun _ => 0)) p
      = preprocess_images (fun _ => (255 : ℚ)) p / (2 : ℚ) :=
  ⟨by omega, by omega,
    path_consecutive_difference (fun _ => (255 : ℚ)) 2 0 (by omega) (by omega)⟩

/-- Element i <= N of the constructed path, as an optional lookup. -/
lemma pathFeatures_getElem (f : Image) (N i : ℕ) (hi : i ≤ N) :
    (pathFeatures f N)[i]? = some (fun p => f p * (i : ℚ) / (N : ℚ)) := by
  rw [pathFeatures_eq_map, List.getElem?_map, List.getElem?_range (by omega)]
  rfl

/-- Element i <= N of the constructed path, as a lookup with default. -/
lemma pathFeatures_getD (f : Image) (N i : ℕ) (hi : i ≤ N) :
    (pathFeatures f N).getD i (fun _ => 0) = fun p => f p * (i : ℚ) / (N : ℚ) := by
  rw [List.getD_eq_getElem?_getD, pathFeatures_getElem f N i hi]
  rfl

/-- Output dictionary of `gradients_model_fn` (cell-15): the path images, the
target-class logit at each path step, and the weighted gradient map at each
path step. -/
structure GradientsPredictions where
  path_features : List Image
  target_logits : List ℚ
  gradients : List Image

/-- Gradients model function (cell-15).  The external ResNet network and the
framework's automatic differentiation are abstract parameters: `network img c`
is the pre-softmax logit of class `c` at image `img`, and `gradLogit c img` is
the gradient of that logit with respect to the pixels of `img` (which is what
`tf.gradients(target_logits, path_features)` yields per path image, since each
path image influences only its own row of `path_logits`).  The final
`tf.multiply(gradients, features)` broadcasts the normalized original image
over the batch, multiplying every per-step gradient map elementwise by it. -/
def gradients_model_fn (network : Image → ℕ → ℚ) (gradLogit : ℕ → Image → Image)
    (images : Image) (most_likely_class : ℕ) (N : ℕ) : GradientsPredictions :=
  let features := preprocess_images images
  let path_features := pathFeatures features N
  let path_logits := path_features.map (fun img => network img)
  let target_logits := path_logits.map (fun logits => logits most_likely_class)
  let gradients := path_features.map
    (fun img => fun p => gradLogit most_likely_class img p * features p)
  { path_features := path_features
    target_logits := target_logits
    gradients := gradients }

/-- C5: there is one gradient map per path image, and the gradient map for path
step i equals the (external) gradient of the target-class pre-softmax logit at
path image i, elementwise multiplied by the normalized original (unperturbed)
image.  Each map has the same 224 x 224 x 3 shape as an Image by construction
(it is a value of type Image). -/
theorem gradient_map_is_weighted_gradient (network : Image → ℕ → ℚ)
    (gradLogit : ℕ → Image → Image) (images : Image) (c N i : ℕ) (hi : i ≤ N) :
    (gradients_model_fn network gradLogit images c N).gradients.length
      = (gradients_model_fn network gradLogit images c N).path_features.length ∧
    (gradients_model_fn network gradLogit images c N).gradients[i]?
      = some (fun p =>
          gradLogit c
              ((gradients_model_fn network gradLogit images c N).path_features.getD i
                (fun _ => 0)) p
            * preprocess_images images p) := by
  constructor
  · simp [gradients_model_fn]
  · simp only [gradients_model_fn]
    rw [List.getElem?_map, pathFeatures_getElem (preprocess_images images) N i hi,
      pathFeatures_getD (preprocess_images images) N i hi]
    rfl

/-- Witness for C5 at a concrete network, gradient oracle, image and step. -/
theorem gradient_map_is_weighted_gradient_witness :
    1 ≤ 1 ∧
    ((gradients_model_fn (fun _ _ => (0 : ℚ)) (fun _ _ => fun _ => (1 : ℚ))
          (fun _ => (255 : ℚ)) 0 1).gradients.length
        = (gradients_model_fn (fun _ _ => (0 : ℚ)) (fun _ _ => fun _ => (1 : ℚ))
            (fun _ => (255 : ℚ)) 0 1).path_features.length ∧
     (gradients_model_fn (fun _ _ => (0 : ℚ)) (fun _ _ => fun _ => (1 : ℚ))
          (fun _ => (255 : ℚ)) 0 1).gradients[1]?
       = some (fun p =>
           (fun _ _ => fun _ => (1 : ℚ)) 0
               ((gradients_model_fn (fun _ _ => (0 : ℚ)) (fun _ _ => fun _ => (1 : ℚ))
                   (fun _ => (255 : ℚ)) 0 1).path_features.getD 1 (fun _ => 0)) p
             * preprocess_images (fun _ => (255 : ℚ)) p)) :=
  ⟨le_refl 1,
    gradient_map_is_weighted_gradient (fun _ _ => (0 : ℚ)) (fun _ _ => fun _ => (1 : ℚ))
      (fun _ => (255 : ℚ)) 0 1 1 (le_refl 1)⟩

/-- Total of all pixel values of an image or gradient map (`np.sum`). -/
def sumPixels (g : Image) : ℚ := ∑ p : Pixel, g p

/-- A constant map sums to the pixel count 224 * 224 * 3 = 150528 times the
constant. -/
lemma sumPixels_const (c : ℚ) : sumPixels (fun _ => c) = 150528 * c := by
  unfold sumPixels
  rw [Finset.sum_const, Finset.card_univ]
  have hcard : Fintype.card Pixel = 150528 := by
    rw [Fintype.card_prod, Fintype.card_prod]
    norm_num [Fintype.card_fin]
  rw [hcard, nsmul_eq_mul]
  push_cast
  ring

/-- Final sanity-check print of cell-32:
`np.sum(int_gradients) / RIEMANN_STEPS + 1`.  By Python operator precedence the
division binds tighter, so the printed value is (sum / RIEMANN_STEPS) + 1. -/
def printedIntegratedGradientsSum (int_gradients : Image) : ℚ :=
  sumPixels int_gradients / (RIEMANN_STEPS : ℚ) + 1

/-- C1 (code bug): the value printed as the sum of integrated gradients is not
the accumulated pixel sum divided by RIEMANN_STEPS: the code computes
sum / RIEMANN_STEPS + 1.  At the concrete integrated-gradient map with constant
pixel value 5/25088 (whose pixel sum is 30), the code prints 2 while the
normalization stated by the claim gives 1. -/
theorem sanity_check_print_adds_one :
    printedIntegratedGradientsSum (fun _ => 5 / 25088) = 2 ∧
    sumPixels (fun _ => 5 / 25088) / (RIEMANN_STEPS : ℚ) = 1 := by
  unfold printedIntegratedGradientsSum
  rw [sumPixels_const]
  norm_num [RIEMANN_STEPS]

/-- Minimum pixel value of a gradient map (`np.ndarray.min`). -/
def min_grad (g : Image) : ℚ := Finset.univ.inf' Finset.univ_nonempty g

/-- Maximum pixel value of a gradient map (`np.ndarray.max`). -/
def max_grad (g : Image) : ℚ := Finset.univ.sup' Finset.univ_nonempty g

/-- Visualization normalization of cell-30 and cell-32:
`(gradient_map - min_grad) / (max_grad - min_grad)`, computed with no guard on
the denominator. -/
def visualizeNormalized (g : Image) : Image :=
  fun p => (g p - min_grad g) / (max_grad g - min_grad g)

/-- C6 (code bug): on a constant gradient map the normalization denominator
max - min is exactly zero and the visualization cells divide by it unguarded,
evaluating 0 / 0 at every pixel (NaN in NumPy floating point); there is no
fallback branch and no error path. -/
theorem constant_gradient_map_zero_denominator :
    max_grad (fun _ => 1) - min_grad (fun _ => 1) = 0 ∧
    visualizeNormalized (fun _ => 1) = fun _ => (0 : ℚ) / 0 := by
  have hmax : max_grad (fun _ => (1 : ℚ)) = 1 := by
    unfold max_grad
    exact Finset.sup'_const _ 1
  have hmin : min_grad (fun _ => (1 : ℚ)) = 1 := by
    unfold min_grad
    exact Finset.inf'_const _ 1
  constructor
  · rw [hmax, hmin]; ring
  · funext p
    unfold visualizeNormalized
    rw [hmax, hmin]
    norm_num

/-- C7 counterexample: with the degenerate step count N = 0, the path
construction does not fail and does not reject the input: it silently returns
the one-element list holding only the all-zero baseline image. -/
theorem degenerate_steps_produce_output :
    pathFeatures (fun _ => 1) 0 = [fun _ => 0] := rfl

/-- C7 amended: the code never validates the step count: the step count is the
fixed constant RIEMANN_STEPS = 30 (which satisfies N >= 1), and for the
degenerate value N = 0 the path construction silently produces the one-image
path [baseline] instead of failing with an error. -/
theorem no_step_count_validation :
    RIEMANN_STEPS = 30 ∧ 1 ≤ RIEMANN_STEPS ∧
    ∀ f : Image, pathFeatures f 0 = [fun _ => 0] :=
  ⟨rfl, by norm_num [RIEMANN_STEPS], fun f => rfl⟩

/-- Integration loop of cell-28: starting from `np.zeros((224, 224, 3))` and an
empty list, fold over the per-step predictions (gradient map, target logit) in
order, adding each gradient map elementwise into the accumulator and appending
the pair (np.sum(gradient_map), target_logit). -/
def integrationLoop (preds : List (Image × ℚ)) : Image × List (ℚ × ℚ) :=
  preds.foldl
    (fun st pred =>
      (fun p => st.1 p + pred.1 p, st.2 ++ [(sumPixels pred.1, pred.2)]))
    (fun _ => 0, [])

/-- The accumulated integrated gradient is, at each pixel, the sum of the
per-step gradient maps at that pixel. -/
lemma integrationLoop_fst (preds : List (Image × ℚ)) (p : Pixel) :
    (integrationLoop preds).1 p = (preds.map (fun pred => pred.1 p)).sum := by
  suffices h : ∀ (l : List (Image × ℚ)) (acc : Image × List (ℚ × ℚ)),
      (l.foldl
          (fun (st : Image × List (ℚ × ℚ)) (pred : Image × ℚ) =>
            (fun q => st.1 q + pred.1 q, st.2 ++ [(sumPixels pred.1, pred.2)]))
          acc).1 p
        = acc.1 p + (l.map (fun pred => pred.1 p)).sum by
    simpa [integrationLoop] using h preds (fun _ => 0, [])
  intro l
  induction l with
  | nil => intro acc; simp
  | cons a l ih =>
    intro acc
    rw [List.foldl_cons, ih]
    simp only [List.map_cons, List.sum_cons]
    ring

/-- C8: the integrator is deterministic: two runs of the accumulation loop over
the same sequence of serialized per-step predictions return identical results,
and the accumulated map is a pure function of the inputs, characterized
pointwise as the sum of the per-step gradient maps (the fold starts from a
fresh zero accumulator and reads no other state). -/
theorem integrator_deterministic (preds1 preds2 : List (Image × ℚ))
    (h : preds1 = preds2) :
    integrationLoop preds1 = integrationLoop preds2 ∧
    ∀ p, (integrationLoop preds1).1 p = (preds1.map (fun pred => pred.1 p)).sum :=
  ⟨h ▸ rfl, fun p => integrationLoop_fst preds1 p⟩

/-- Witness for C8 on a concrete one-step prediction list. -/
theorem integrator_deterministic_witness :
    ([((fun _ => (1 : ℚ)), (5 : ℚ))] : List (Image × ℚ))
        = [((fun _ => (1 : ℚ)), (5 : ℚ))] ∧
    (integrationLoop [((fun _ => (1 : ℚ)), (5 : ℚ))]
        = integrationLoop [((fun _ => (1 : ℚ)), (5 : ℚ))] ∧
     ∀ p, (integrationLoop [((fun _ => (1 : ℚ)), (5 : ℚ))]).1 p
        = ([((fun _ => (1 : ℚ)), (5 : ℚ))].map (fun pred => pred.1 p)).sum) :=
  ⟨rfl, integrator_deterministic _ _ rfl⟩

/-- C9: at every pixel whose raw value is 127.5 (= 255/2, normalized to zero by
preprocessing, the grey-baseline value), every per-step gradient map is exactly
zero, and therefore the accumulated integrated gradient is zero there too. -/
theorem gradient_zero_at_grey_pixels (network : Image → ℕ → ℚ)
    (gradLogit : ℕ → Image → Image) (images : Image) (c N : ℕ) (p : Pixel)
    (h : images p = 255 / 2) :
    (∀ g ∈ (gradients_model_fn network gradLogit images c N).gradients, g p = 0) ∧
    (integrationLoop
        ((gradients_model_fn network gradLogit images c N).gradients.map
          (fun g => (g, (0 : ℚ))))).1 p = 0 := by
  have hfeat : preprocess_images images p = 0 := by
    unfold preprocess_images
    rw [h]
    norm_num
  have hzero : ∀ g ∈ (gradients_model_fn network gradLogit images c N).gradients,
      g p = 0 := by
    intro g hg
    simp only [gradients_model_fn] at hg
    rw [List.mem_map] at hg
    obtain ⟨img, _, rfl⟩ := hg
    simp only [hfeat, mul_zero]
  refine ⟨hzero, ?_⟩
  rw [integrationLoop_fst, List.map_map]
  apply List.sum_eq_zero
  intro x hx
  rw [List.mem_map] at hx
  obtain ⟨g, hg, rfl⟩ := hx
  exact hzero g hg

/-- Witness for C9 at a concrete model, the uniform-grey image and pixel
(0, 0, 0). -/
theorem gradient_zero_at_grey_pixels_witness :
    (fun _ => (255 / 2 : ℚ)) ((0 : Fin 224), (0 : Fin 224), (0 : Fin 3)) = 255 / 2 ∧
    ((∀ g ∈ (gradients_model_fn (fun _ _ => (0 : ℚ)) (fun _ _ => fun _ => (1 : ℚ))
          (fun _ => (255 / 2 : ℚ)) 0 1).gradients,
        g ((0 : Fin 224), (0 : Fin 224), (0 : Fin 3)) = 0) ∧
     (integrationLoop
         ((gradients_model_fn (fun _ _ => (0 : ℚ)) (fun _ _ => fun _ => (1 : ℚ))
             (fun _ => (255 / 2 : ℚ)) 0 1).gradients.map
           (fun g => (g, (0 : ℚ))))).1 ((0 : Fin 224), (0 : Fin 224), (0 : Fin 3)) = 0) :=
  ⟨rfl,
    gradient_zero_at_grey_pixels (fun _ _ => (0 : ℚ)) (fun _ _ => fun _ => (1 : ℚ))
      (fun _ => (255 / 2 : ℚ)) 0 1 ((0 : Fin 224), (0 : Fin 224), (0 : Fin 3)) rfl⟩

/-- Python list indexing `l[i]` for an integer index: negative indices count
from the end of the list; an out-of-range index (IndexError) is none. -/
def pyIndex (l : List String) (i : ℤ) : Option String :=
  if 0 ≤ i then l[i.toNat]?
  else if -i ≤ (l.length : ℤ) then l[l.length - (-i).toNat]?
  else none

/-- Top-K label lookup of cell-25:
`classval = [labels[x - 1] for x in classval]`, subtracting 1 because the
served model reserves class index 0 for a miscellaneous class and starts the
ImageNet classes at index 1. -/
def lookupClassLabels (labels : List String) (classval : List ℕ) : List (Option String) :=
  classval.map (fun (x : ℕ) => pyIndex labels ((x : ℤ) - 1))

/-- C10: for every returned class index c in the label range (1 <= c <= number
of labels), the displayed class name is the label at 0-based position c - 1,
and that label exists. -/
theorem label_lookup_offset (labels : List String) (c : ℕ)
    (h1 : 1 ≤ c) (h2 : c ≤ labels.length) :
    lookupClassLabels labels [c] = [labels[c - 1]?] ∧
    (labels[c - 1]?).isSome = true := by
  constructor
  · simp only [lookupClassLabels, List.map_cons, List.map_nil]
    unfold pyIndex
    rw [if_pos (by omega)]
    have : ((c : ℤ) - 1).toNat = c - 1 := by omega
    rw [this]
  · rw [List.getElem?_eq_getElem (by omega)]
    rfl

/-- Witness for C10 with a two-label file and class index 1. -/
theorem label_lookup_offset_witness :
    1 ≤ 1 ∧ 1 ≤ (["tench", "goldfish"] : List String).length ∧
    (lookupClassLabels ["tench", "goldfish"] [1]
        = [(["tench", "goldfish"] : List String)[1 - 1]?] ∧
     ((["tench", "goldfish"] : List String)[1 - 1]?).isSome = true) :=
  ⟨le_refl 1, by simp,
    label_lookup_offset ["tench", "goldfish"] 1 (le_refl 1) (by simp)⟩

end ResnetUnderstanding
